import Mathlib

/-!
Shallow embedding of the optimistic-concurrency / conflict-detection layer of
the product-management repository.

Backend (`products.service.ts`): the TypeORM repository is modelled as a
`List Product`; `save` bumps `version` (`@VersionColumn`) and sets `updatedAt`
(`@UpdateDateColumn`) to the current time, which is passed explicitly as `now`.
Exceptions are modelled by `Except AppError`; every operation also returns the
store so that the throw paths visibly leave it unchanged.

Frontend (`data-consistency.service.ts`): the client-side `Product` type (no
`version` field), conflict detection, and the resolution strategies.  The
external `apiClient.updateProduct` call is modelled as a function parameter
returning `Option`, and the writes a resolution issues are returned as a trace.

Timestamps are epoch milliseconds (`Int`), numeric fields are `Int` (only
equality and order on them matter to this layer).
-/

structure Dimensions where
  length : Int
  width : Int
  height : Int
  unit : String
deriving Repr, DecidableEq

/-- Backend entity `Product` (product.entity.ts). -/
structure Product where
  id : String
  name : String
  description : String
  price : Int
  quantity : Int
  category : String
  imageUrl : Option String
  sku : Option String
  weight : Option Int
  dimensions : Option Dimensions
  tags : Option (List String)
  isActive : Bool
  minStockLevel : Int
  costPrice : Option Int
  notes : Option String
  createdAt : Int
  updatedAt : Int
  version : Int
deriving Repr, DecidableEq

/-- Error taxonomy of the service layer (NotFoundException, ConflictException,
BadRequestException); the message strings are not modelled. -/
inductive AppError where
  | notFound
  | conflict
  | badRequest
deriving Repr, DecidableEq

/-- `UpdateProductVersionedDto`: all business fields optional
(`PartialType(CreateProductDto)`) plus optional `id`, `version`,
`lastModified`.  `none` models an absent key. -/
structure UpdateVersionedDto where
  id : Option String
  version : Option Int
  lastModified : Option Int
  name : Option String
  description : Option String
  price : Option Int
  quantity : Option Int
  category : Option String
  imageUrl : Option String
  sku : Option String
  weight : Option Int
  dimensions : Option Dimensions
  tags : Option (List String)
  isActive : Option Bool
  minStockLevel : Option Int
  costPrice : Option Int
  notes : Option String
deriving Repr, DecidableEq

deriving instance DecidableEq for Except

/-- ProductsService.findOne: repository lookup by id, NotFound when absent. -/
def findOne (store : List Product) (id : String) : Except AppError Product :=
  match store.find? (fun p => p.id == id) with
  | some p => .ok p
  | none => .error .notFound

/-- Repository `save`: replaces the stored record, bumping `version` and
setting `updatedAt` to the current time (VersionColumn / UpdateDateColumn). -/
def saveProduct (store : List Product) (p : Product) (now : Int) :
    Product × List Product :=
  let saved := { p with updatedAt := now, version := p.version + 1 }
  (saved, store.map (fun q => if q.id == p.id then saved else q))

/-- The first conflict check of `updateWithVersionCheck`:
`updateProductDto.version !== undefined && product.version !== updateProductDto.version`. -/
def versionMismatch (dtoVersion : Option Int) (current : Int) : Bool :=
  match dtoVersion with
  | some v => decide (current ≠ v)
  | none => false

/-- The second conflict check: `updateProductDto.lastModified !== undefined`
and `product.updatedAt > new Date(updateProductDto.lastModified)`. -/
def timestampConflict (dtoLastModified : Option Int) (currentUpdatedAt : Int) : Bool :=
  match dtoLastModified with
  | some t => decide (currentUpdatedAt > t)
  | none => false

/-- `Object.assign(product, updateData)` where `updateData` is the dto with
`version` and `lastModified` destructured away (`id` remains and is assigned).
Keys absent from the dto keep the prior value. -/
def applyUpdateData (p : Product) (dto : UpdateVersionedDto) : Product :=
  { p with
    id := dto.id.getD p.id
    name := dto.name.getD p.name
    description := dto.description.getD p.description
    price := dto.price.getD p.price
    quantity := dto.quantity.getD p.quantity
    category := dto.category.getD p.category
    imageUrl := match dto.imageUrl with | some v => some v | none => p.imageUrl
    sku := match dto.sku with | some v => some v | none => p.sku
    weight := match dto.weight with | some v => some v | none => p.weight
    dimensions := match dto.dimensions with | some v => some v | none => p.dimensions
    tags := match dto.tags with | some v => some v | none => p.tags
    isActive := dto.isActive.getD p.isActive
    minStockLevel := dto.minStockLevel.getD p.minStockLevel
    costPrice := match dto.costPrice with | some v => some v | none => p.costPrice
    notes := match dto.notes with | some v => some v | none => p.notes }

/-- ProductsService.updateWithVersionCheck.  Returns the result together with
the store: the two Conflict throws and the NotFound throw happen before the
single `save`, so those paths return the store untouched. -/
def updateWithVersionCheck (store : List Product) (now : Int) (id : String)
    (dto : UpdateVersionedDto) : Except AppError Product × List Product :=
  match findOne store id with
  | .error e => (.error e, store)
  | .ok product =>
    if versionMismatch dto.version product.version then
      (.error .conflict, store)
    else if timestampConflict dto.lastModified product.updatedAt then
      (.error .conflict, store)
    else
      (.ok (saveProduct store (applyUpdateData product dto) now).1,
       (saveProduct store (applyUpdateData product dto) now).2)

/-- Default product used to build concrete test stores. -/
def mkProduct (id : String) (version : Int) (updatedAt : Int) : Product :=
  { id := id, name := "n" ++ id, description := "d", price := 10, quantity := 5,
    category := "general", imageUrl := none, sku := none, weight := none,
    dimensions := none, tags := none, isActive := true, minStockLevel := 0,
    costPrice := none, notes := none, createdAt := 0, updatedAt := updatedAt,
    version := version }

/-- Dto with every key absent. -/
def emptyDto : UpdateVersionedDto :=
  { id := none, version := none, lastModified := none, name := none,
    description := none, price := none, quantity := none, category := none,
    imageUrl := none, sku := none, weight := none, dimensions := none,
    tags := none, isActive := none, minStockLevel := none, costPrice := none,
    notes := none }

/-- Untyped JS values appearing in `ConflictInfo` / `ProductConflict` payloads. -/
inductive JsValue where
  | nullV
  | undefinedV
  | str (s : String)
  | int (n : Int)
  | date (t : Int)
  | bool (b : Bool)
deriving Repr, DecidableEq

/-- Backend `ConflictInfo` (products.service.ts). -/
structure ConflictInfo where
  field : String
  currentValue : JsValue
  attemptedValue : JsValue
  lastModified : Int
deriving Repr, DecidableEq

/-- A client record handed to the backend detector: `Partial<Product>`,
restricted to the keys the detector reads (`id`, `version`, `updatedAt`).
The remaining optional business fields are only carried through the spread
into the result record and never inspected. -/
structure ClientProduct where
  id : Option String
  version : Option Int
  updatedAt : Option Int
deriving Repr, DecidableEq

/-- The record part of a `ProductWithConflicts` entry: the code spreads either
the server record, the client partial (backend detector, deleted record), or
the bulk-update dto (bulk update, deleted record). -/
inductive ConflictRecord where
  | fromServer (p : Product)
  | fromClient (c : ClientProduct)
  | fromDto (d : UpdateVersionedDto)
deriving Repr, DecidableEq

/-- Backend `ProductWithConflicts`. -/
structure ProductWithConflicts where
  record : ConflictRecord
  conflicts : List ConflictInfo
deriving Repr, DecidableEq

/-- ProductsService.compareProductVersions: a `version` conflict when the
client supplies a differing version, then an `updatedAt` conflict when the
server record is strictly newer than the supplied `updatedAt`. -/
def compareProductVersions (client : ClientProduct) (server : Product) :
    List ConflictInfo :=
  (match client.version with
   | some v =>
     if v ≠ server.version then
       [{ field := "version", currentValue := .int server.version,
          attemptedValue := .int v, lastModified := server.updatedAt }]
     else []
   | none => []) ++
  (match client.updatedAt with
   | some t =>
     if server.updatedAt > t then
       [{ field := "updatedAt", currentValue := .date server.updatedAt,
          attemptedValue := .date t, lastModified := server.updatedAt }]
     else []
   | none => [])

/-- The `existence` descriptor pushed for a record missing server-side. -/
def existenceConflict (now : Int) : ConflictInfo :=
  { field := "existence", currentValue := .nullV,
    attemptedValue := .str "exists", lastModified := now }

/-- ProductsService.detectConflicts.  `!clientProduct.id` skips records whose
id is absent or the empty string (JS truthiness); `findOneWithVersion` differs
from `findOne` only in the selected columns and is modelled by it. -/
def detectConflicts (store : List Product) (now : Int) :
    List ClientProduct → List ProductWithConflicts
  | [] => []
  | c :: rest =>
    match c.id with
    | none => detectConflicts store now rest
    | some i =>
      if i = "" then detectConflicts store now rest
      else
        match findOne store i with
        | .ok server =>
          let productConflicts := compareProductVersions c server
          if productConflicts.length > 0 then
            { record := .fromServer server, conflicts := productConflicts }
              :: detectConflicts store now rest
          else detectConflicts store now rest
        | .error _ =>
          { record := .fromClient c, conflicts := [existenceConflict now] }
            :: detectConflicts store now rest

/-- `attemptedValue: updateDto.version` in the bulk conflict entry — the dto
version may be absent, in which case the JS value is `undefined`. -/
def optIntValue : Option Int → JsValue
  | some v => .int v
  | none => .undefinedV

/-- ProductsService.bulkUpdateWithConflictDetection.  Items are processed in
order, threading the store; a missing/empty id throws BadRequest and a
non-Conflict error from the update is rethrown — both abort the whole batch
(the TS function throws, discarding the aggregated lists).  A Conflict is
caught and recorded, and processing continues. -/
def bulkUpdateWithConflictDetection (now : Int) :
    List Product → List UpdateVersionedDto →
    Except AppError (List Product × List ProductWithConflicts) × List Product
  | store, [] => (.ok ([], []), store)
  | store, dto :: rest =>
    match dto.id with
    | none => (.error .badRequest, store)
    | some i =>
      if i = "" then (.error .badRequest, store)
      else
        match updateWithVersionCheck store now i dto with
        | (.ok p, store2) =>
          match bulkUpdateWithConflictDetection now store2 rest with
          | (.ok (us, cs), store3) => (.ok (p :: us, cs), store3)
          | (.error e, store3) => (.error e, store3)
        | (.error .conflict, store2) =>
          let entry : ProductWithConflicts :=
            match findOne store2 i with
            | .ok serverProduct =>
              { record := .fromServer serverProduct,
                conflicts := [{ field := "version",
                                currentValue := .int serverProduct.version,
                                attemptedValue := optIntValue dto.version,
                                lastModified := serverProduct.updatedAt }] }
            | .error _ =>
              { record := .fromDto dto, conflicts := [existenceConflict now] }
          match bulkUpdateWithConflictDetection now store2 rest with
          | (.ok (us, cs), store3) => (.ok (us, entry :: cs), store3)
          | (.error e, store3) => (.error e, store3)
        | (.error e, store2) => (.error e, store2)

/-- 32-bit signed wrap of `hash & hash` / `<<` in JS. -/
def toInt32 (x : Int) : Int :=
  let m := x % 4294967296
  if m < 2147483648 then m else m - 4294967296

/-- One step of the rolling hash: `hash = ((hash << 5) - hash) + char` followed
by `hash = hash & hash`.  The shift operates on 32-bit integers; the
subtraction and addition are exact in doubles at these magnitudes. -/
def hashStep (h : Int) (c : Nat) : Int :=
  toInt32 (toInt32 (h * 32) - h + c)

/-- `generateChecksum`'s loop over `charCodeAt` (the strings involved are
ASCII, where code units and code points coincide). -/
def hashString (s : String) : Int :=
  s.data.foldl (fun h ch => hashStep h ch.toNat) 0

def base36Digit (n : Nat) : Char :=
  if n < 10 then Char.ofNat (48 + n) else Char.ofNat (87 + n)

/-- Digit loop, driven by a fuel argument so that it is structurally
recursive; `natToBase36` supplies fuel `n`, which always suffices since the
argument shrinks by a factor of 36 each step. -/
def natToBase36Go : Nat → Nat → List Char → List Char
  | 0, n, acc => base36Digit (n % 36) :: acc
  | fuel + 1, n, acc =>
    if n < 36 then base36Digit n :: acc
    else natToBase36Go fuel (n / 36) (base36Digit (n % 36) :: acc)

def natToBase36 (n : Nat) : String :=
  String.mk (natToBase36Go n n [])

/-- JS `Number.prototype.toString(36)` restricted to 32-bit integers. -/
def intToBase36 (x : Int) : String :=
  if x < 0 then "-" ++ natToBase36 x.natAbs
  else natToBase36 x.toNat

/-- ProductsService.generateChecksum. -/
def generateChecksum (data : String) : String :=
  intToBase36 (hashString data)

/-- The triple of a record the checksum depends on. -/
def productTriple (p : Product) : String × Int × Int :=
  (p.id, p.version, p.updatedAt)

/-- One joined segment, `id:version:updatedAtEpochMillis`. -/
def tripleLine (t : String × Int × Int) : String :=
  t.1 ++ ":" ++ toString t.2.1 ++ ":" ++ toString t.2.2

def checksumLine (p : Product) : String :=
  tripleLine (productTriple p)

structure ConsistencyResult where
  totalProducts : Nat
  lastModified : Option Int
  checksum : String
deriving Repr, DecidableEq

/-- ProductsService.checkDataConsistency, applied to the fetched record list
(the repository `find` with `order: ⟨updatedAt: DESC⟩`). -/
def checkDataConsistency (fetched : List Product) : ConsistencyResult :=
  { totalProducts := fetched.length
    lastModified := fetched.head?.map (fun p => p.updatedAt)
    checksum :=
      generateChecksum (String.intercalate "|" (fetched.map checksumLine)) }

/-- A list the repository may return for `find` ordered by `updatedAt DESC`:
some permutation of the store that is non-increasing in `updatedAt`.  Ties in
`updatedAt` are ordered arbitrarily by the database. -/
def validFetch (store fetched : List Product) : Prop :=
  fetched.Perm store ∧
    fetched.Pairwise (fun a b => b.updatedAt ≤ a.updatedAt)

instance (store fetched : List Product) : Decidable (validFetch store fetched) := by
  unfold validFetch; infer_instance

example : generateChecksum "" = "0" := by decide

set_option maxRecDepth 4000 in
example :
    (checkDataConsistency [mkProduct "a" 1 0, mkProduct "b" 1 0]).checksum
    ≠ (checkDataConsistency [mkProduct "b" 1 0, mkProduct "a" 1 0]).checksum := by
  decide

/-- Frontend `Product` (app/types/product): note there is no `version` field. -/
structure FrontProduct where
  id : String
  name : String
  description : String
  price : Int
  quantity : Int
  category : String
  imageUrl : Option String
  sku : Option String
  weight : Option Int
  dimensions : Option Dimensions
  tags : Option (List String)
  isActive : Bool
  minStockLevel : Int
  costPrice : Option Int
  notes : Option String
  createdAt : Int
  updatedAt : Int
deriving Repr, DecidableEq

/-- Frontend `ProductConflict`; `lastModified` is flattened into the two
components of its `⟨client, server⟩` pair. -/
structure ProductConflict where
  productId : String
  field : String
  clientValue : JsValue
  serverValue : JsValue
  clientModified : Int
  serverModified : Int
deriving Repr, DecidableEq

def optStrValue : Option String → JsValue
  | some s => .str s
  | none => .undefinedV

def optIntField : Option Int → JsValue
  | some n => .int n
  | none => .undefinedV

/-- Indexing `product[field]` for the fields in `fieldsToCheck`; comparison in
the source is `JSON.stringify` equality, which on these field types is
structural equality. -/
def getField (p : FrontProduct) : String → JsValue
  | "name" => .str p.name
  | "description" => .str p.description
  | "price" => .int p.price
  | "quantity" => .int p.quantity
  | "category" => .str p.category
  | "imageUrl" => optStrValue p.imageUrl
  | "sku" => optStrValue p.sku
  | "weight" => optIntField p.weight
  | "isActive" => .bool p.isActive
  | "minStockLevel" => .int p.minStockLevel
  | "costPrice" => optIntField p.costPrice
  | "notes" => optStrValue p.notes
  | _ => .undefinedV

/-- The fixed field set of DataConsistencyService.compareProducts. -/
def fieldsToCheck : List String :=
  ["name", "description", "price", "quantity", "category",
   "imageUrl", "sku", "weight", "isActive", "minStockLevel", "costPrice", "notes"]

/-- DataConsistencyService.compareProducts: evaluate only when the server copy
is strictly newer, then one conflict per differing field of the fixed set. -/
def compareProducts (clientProduct serverProduct : FrontProduct) :
    List ProductConflict :=
  if serverProduct.updatedAt > clientProduct.updatedAt then
    fieldsToCheck.filterMap (fun f =>
      if getField clientProduct f ≠ getField serverProduct f then
        some { productId := clientProduct.id, field := f,
               clientValue := getField clientProduct f,
               serverValue := getField serverProduct f,
               clientModified := clientProduct.updatedAt,
               serverModified := serverProduct.updatedAt }
      else none)
  else []

/-- Key list of `new Map(products.map(p => [p.id, p]))` in iteration order:
first occurrence of each id. -/
def dedupFirst : List String → List String
  | [] => []
  | x :: xs => x :: (dedupFirst xs).filter (fun y => y ≠ x)

/-- `map.get(id)`: the value stored under a key is the last entry with that
id in the construction list. -/
def mapGet (products : List FrontProduct) (i : String) : Option FrontProduct :=
  products.reverse.find? (fun p => p.id == i)

/-- DataConsistencyService.detectConflicts: compare the client and server
copies of every id present in both maps; ids missing on either side emit
nothing. -/
def fcDetectConflicts (clientProducts serverProducts : List FrontProduct) :
    List ProductConflict :=
  (dedupFirst (clientProducts.map (fun p => p.id))).flatMap (fun i =>
    match mapGet clientProducts i, mapGet serverProducts i with
    | some c, some s => compareProducts c s
    | _, _ => [])

/-- The full business-field payload `resolveClientWins` sends to
`apiClient.updateProduct`. -/
structure UpdateRequest where
  name : String
  description : String
  price : Int
  quantity : Int
  category : String
  imageUrl : Option String
  sku : Option String
  weight : Option Int
  dimensions : Option Dimensions
  tags : Option (List String)
  isActive : Bool
  minStockLevel : Int
  costPrice : Option Int
  notes : Option String
deriving Repr, DecidableEq

def toUpdateRequest (p : FrontProduct) : UpdateRequest :=
  { name := p.name, description := p.description, price := p.price,
    quantity := p.quantity, category := p.category, imageUrl := p.imageUrl,
    sku := p.sku, weight := p.weight, dimensions := p.dimensions,
    tags := p.tags, isActive := p.isActive, minStockLevel := p.minStockLevel,
    costPrice := p.costPrice, notes := p.notes }

/-- The external `apiClient.updateProduct`, modelled as a function from id and
payload to `some updated` on success or `none` on a thrown error. -/
def ApiWrite := String → UpdateRequest → Option FrontProduct

/-- DataConsistencyService.resolveServerWins: return the server data as-is. -/
def resolveServerWins (conflicts : List ProductConflict)
    (serverProducts : List FrontProduct) : List FrontProduct :=
  serverProducts

/-- The loop of `resolveClientWins` over client products, accumulating the
resolved records and the trace of issued writes. -/
def clientWinsGo (api : ApiWrite) (conflictedIds : List String)
    (serverProducts : List FrontProduct) :
    List FrontProduct → List FrontProduct × List (String × UpdateRequest)
  | [] => ([], [])
  | c :: rest =>
    let acc := clientWinsGo api conflictedIds serverProducts rest
    if c.id ∈ conflictedIds then
      match api c.id (toUpdateRequest c) with
      | some updated => (updated :: acc.1, (c.id, toUpdateRequest c) :: acc.2)
      | none =>
        match serverProducts.find? (fun p => p.id == c.id) with
        | some serverProduct =>
          (serverProduct :: acc.1, (c.id, toUpdateRequest c) :: acc.2)
        | none => (acc.1, (c.id, toUpdateRequest c) :: acc.2)
    else (c :: acc.1, acc.2)

/-- DataConsistencyService.resolveClientWins.  Also returns the trace of
issued `updateProduct` calls, in order.  A failed call falls back to the
server copy of that record (when one exists) and processing continues. -/
def resolveClientWins (api : ApiWrite) (conflicts : List ProductConflict)
    (clientProducts serverProducts : List FrontProduct) :
    List FrontProduct × List (String × UpdateRequest) :=
  clientWinsGo api (conflicts.map (fun c => c.productId)) serverProducts
    clientProducts

/-- DataConsistencyService.mergeProducts: whole-record pick of the side with
the newer `updatedAt`; the server side is chosen only on strict inequality. -/
def mergeProducts (clientProduct serverProduct : FrontProduct) : FrontProduct :=
  if serverProduct.updatedAt > clientProduct.updatedAt then serverProduct
  else clientProduct

/-- DataConsistencyService.resolveMerge: union of ids (client first-occurrence
order, then server-only ids), merging records present on both sides. -/
def resolveMerge (conflicts : List ProductConflict)
    (clientProducts serverProducts : List FrontProduct) : List FrontProduct :=
  let allIds := dedupFirst
    (clientProducts.map (fun p => p.id) ++ serverProducts.map (fun p => p.id))
  allIds.filterMap (fun i =>
    match mapGet clientProducts i, mapGet serverProducts i with
    | some c, some s => some (mergeProducts c s)
    | some c, none => some c
    | none, some s => some s
    | none, none => none)

inductive Strategy where
  | serverWins
  | clientWins
  | merge
  | promptUser
deriving Repr, DecidableEq

/-- DataConsistencyService.resolveConflicts, dispatching on the configured
strategy; `prompt-user` falls back to server-wins with a logged warning.  The
second component is the trace of writes issued to the store. -/
def resolveConflicts (strategy : Strategy) (api : ApiWrite)
    (conflicts : List ProductConflict)
    (clientProducts serverProducts : List FrontProduct) :
    List FrontProduct × List (String × UpdateRequest) :=
  match strategy with
  | .serverWins => (resolveServerWins conflicts serverProducts, [])
  | .clientWins => resolveClientWins api conflicts clientProducts serverProducts
  | .merge => (resolveMerge conflicts clientProducts serverProducts, [])
  | .promptUser => (resolveServerWins conflicts serverProducts, [])

/-- Default frontend product for concrete tests. -/
def mkFront (id : String) (updatedAt : Int) : FrontProduct :=
  { id := id, name := "n" ++ id, description := "d", price := 10, quantity := 5,
    category := "general", imageUrl := none, sku := none, weight := none,
    dimensions := none, tags := none, isActive := true, minStockLevel := 0,
    costPrice := none, notes := none, createdAt := 0, updatedAt := updatedAt }

example :
    fcDetectConflicts [mkFront "a" 100] [{ mkFront "a" 200 with price := 12 }]
    = [{ productId := "a", field := "price", clientValue := .int 10,
         serverValue := .int 12, clientModified := 100, serverModified := 200 }] := by
  decide

/-! ## Theorems -/

/-- C1: for every existing record, an `updateWithVersionCheck` call whose
supplied `version` differs from the stored revision fails with Conflict and
returns the store exactly as it was: no record's revision, `updatedAt` or
business fields change. -/
theorem c1_stale_revision_conflict_no_mutation
    (store : List Product) (now : Int) (id : String) (dto : UpdateVersionedDto)
    (p : Product) (v : Int)
    (hfind : findOne store id = .ok p)
    (hv : dto.version = some v)
    (hne : v ≠ p.version) :
    updateWithVersionCheck store now id dto = (.error .conflict, store) := by
  have hmis : versionMismatch dto.version p.version = true := by
    simp only [versionMismatch, hv, decide_eq_true_eq]
    exact fun h => hne h.symm
  simp [updateWithVersionCheck, hfind, hmis]

theorem c1_stale_revision_conflict_no_mutation_witness :
    updateWithVersionCheck [mkProduct "a" 2 100] 200 "a"
      { emptyDto with id := some "a", version := some 1 }
      = (.error .conflict, [mkProduct "a" 2 100]) :=
  c1_stale_revision_conflict_no_mutation _ 200 "a" _ (mkProduct "a" 2 100) 1
    (by decide) rfl (by decide)

/-- C7: on an existing record, when `lastModified` is supplied and the server
record's `updatedAt` is strictly greater, the call fails with Conflict leaving
the store unchanged; when it is supplied but not strictly smaller than the
server's `updatedAt` (and the version check does not itself fire), the
timestamp check causes no failure and the update succeeds. -/
theorem c7_timestamp_check
    (store : List Product) (now : Int) (id : String) (dto : UpdateVersionedDto)
    (p : Product) (t : Int)
    (hfind : findOne store id = .ok p)
    (ht : dto.lastModified = some t) :
    (p.updatedAt > t →
      updateWithVersionCheck store now id dto = (.error .conflict, store)) ∧
    (versionMismatch dto.version p.version = false → ¬ p.updatedAt > t →
      ∃ q store2, updateWithVersionCheck store now id dto = (.ok q, store2)) := by
  constructor
  · intro hgt
    have hts : timestampConflict dto.lastModified p.updatedAt = true := by
      simp only [timestampConflict, ht, decide_eq_true_eq]
      exact hgt
    by_cases hv : versionMismatch dto.version p.version
    · simp [updateWithVersionCheck, hfind, hv]
    · simp [updateWithVersionCheck, hfind, hv, hts]
  · intro hv hle
    have hts : timestampConflict dto.lastModified p.updatedAt = false := by
      simp only [timestampConflict, ht, decide_eq_false_iff_not]
      exact hle
    simp [updateWithVersionCheck, hfind, hv, hts, saveProduct]

theorem c7_timestamp_check_witness :
    updateWithVersionCheck [mkProduct "a" 2 300] 400 "a"
      { emptyDto with id := some "a", lastModified := some 100 }
      = (.error .conflict, [mkProduct "a" 2 300]) ∧
    ∃ q store2,
      updateWithVersionCheck [mkProduct "a" 2 300] 400 "a"
        { emptyDto with id := some "a", lastModified := some 300 }
        = (.ok q, store2) :=
  ⟨(c7_timestamp_check [mkProduct "a" 2 300] 400 "a" _ (mkProduct "a" 2 300) 100
      (by decide) rfl).1 (by decide),
   (c7_timestamp_check [mkProduct "a" 2 300] 400 "a" _ (mkProduct "a" 2 300) 300
      (by decide) rfl).2 (by decide) (by decide)⟩

/-- C8: under the server-wins strategy `resolveConflicts` issues no write at
all and returns exactly the server records, for every conflicts list, client
list and server list. -/
theorem c8_server_wins_no_write_returns_server
    (api : ApiWrite) (conflicts : List ProductConflict)
    (clientProducts serverProducts : List FrontProduct) :
    resolveConflicts .serverWins api conflicts clientProducts serverProducts
      = (serverProducts, []) := rfl

/-- C10: in the merge strategy a record present on both sides resolves to the
client copy whenever the timestamps tie — the server copy is chosen only on a
strictly greater `updatedAt`; `resolveMerge` places exactly that pick for an
id present on both sides. -/
theorem c10_merge_tie_prefers_client
    (clientProduct serverProduct : FrontProduct) :
    (clientProduct.updatedAt = serverProduct.updatedAt →
      mergeProducts clientProduct serverProduct = clientProduct) ∧
    (mergeProducts clientProduct serverProduct
      = if clientProduct.updatedAt < serverProduct.updatedAt then serverProduct
        else clientProduct) ∧
    (∀ conflicts : List ProductConflict, clientProduct.id = serverProduct.id →
      resolveMerge conflicts [clientProduct] [serverProduct]
        = [mergeProducts clientProduct serverProduct]) := by
  refine ⟨?_, rfl, ?_⟩
  · intro h
    simp [mergeProducts, h]
  · intro conflicts hid
    simp [resolveMerge, dedupFirst, mapGet, hid]

theorem c10_merge_tie_prefers_client_witness :
    mergeProducts (mkFront "a" 100) { mkFront "a" 100 with price := 99 }
      = mkFront "a" 100 ∧
    resolveMerge [] [mkFront "a" 100] [{ mkFront "a" 100 with price := 99 }]
      = [mergeProducts (mkFront "a" 100) { mkFront "a" 100 with price := 99 }] :=
  ⟨(c10_merge_tie_prefers_client (mkFront "a" 100)
      { mkFront "a" 100 with price := 99 }).1 rfl,
   (c10_merge_tie_prefers_client (mkFront "a" 100)
      { mkFront "a" 100 with price := 99 }).2.2 [] rfl⟩

example :
    bulkUpdateWithConflictDetection 200 [mkProduct "a" 1 100, mkProduct "b" 2 100]
      [{ emptyDto with id := some "a", version := some 1 },
       { emptyDto with id := some "b", version := some 1 }]
    = (.ok ([{ mkProduct "a" 1 100 with updatedAt := 200, version := 2 }],
            [{ record := .fromServer (mkProduct "b" 2 100),
               conflicts := [{ field := "version", currentValue := .int 2,
                               attemptedValue := .int 1, lastModified := 100 }] }]),
       [{ mkProduct "a" 1 100 with updatedAt := 200, version := 2 }, mkProduct "b" 2 100]) := by
  decide

example :
    (updateWithVersionCheck [mkProduct "a" 2 100] 200 "a"
      { emptyDto with id := some "a", version := some 2, price := some 42 }).2
      = [{ mkProduct "a" 2 100 with price := 42, updatedAt := 200, version := 3 }] := by
  decide

/-- Every conflict produced by `compareProducts` is tagged with the client
record's id. -/
lemma compareProducts_productId {c s : FrontProduct} {d : ProductConflict}
    (hd : d ∈ compareProducts c s) : d.productId = c.id := by
  unfold compareProducts at hd
  split at hd
  · obtain ⟨f, _, hsome⟩ := List.mem_filterMap.mp hd
    split at hsome
    · cases hsome
      rfl
    · cases hsome
  · cases hd

/-- A successful `map.get` returns a stored record bearing that key. -/
lemma mapGet_eq_some {ps : List FrontProduct} {i : String} {p : FrontProduct}
    (h : mapGet ps i = some p) : p.id = i ∧ p ∈ ps := by
  unfold mapGet at h
  refine ⟨?_, ?_⟩
  · have := List.find?_some h
    simpa using this
  · have := List.mem_of_find?_eq_some h
    simpa using this

/-- C9: the client-side detector compares only ids present on both sides; a
client record whose id is missing from the server list contributes no
ConflictDescriptor at all, so a server-side deletion is never reported. -/
theorem c9_client_side_detector_skips_missing_ids
    (clientProducts serverProducts : List FrontProduct) (i : String)
    (hi : i ∉ serverProducts.map (fun p => p.id)) :
    ∀ d ∈ fcDetectConflicts clientProducts serverProducts, d.productId ≠ i := by
  intro d hd
  unfold fcDetectConflicts at hd
  obtain ⟨j, _, hdj⟩ := List.mem_flatMap.mp hd
  intro hdi
  subst hdi
  match hc : mapGet clientProducts j, hs : mapGet serverProducts j with
  | some c, some s =>
    rw [hc, hs] at hdj
    obtain ⟨hsid, hsmem⟩ := mapGet_eq_some hs
    have hcid := (mapGet_eq_some hc).1
    have : d.productId = j := (compareProducts_productId hdj).trans hcid
    exact hi (this ▸ (hsid ▸ List.mem_map_of_mem (fun p => p.id) hsmem))
  | some _, none => rw [hc, hs] at hdj; cases hdj
  | none, some _ => rw [hc, hs] at hdj; cases hdj
  | none, none => rw [hc, hs] at hdj; cases hdj

theorem c9_client_side_detector_skips_missing_ids_witness :
    "a" ∉ ([mkFront "b" 300] : List FrontProduct).map (fun p => p.id) ∧
    ∀ d ∈ fcDetectConflicts [mkFront "a" 100] [mkFront "b" 300],
      d.productId ≠ "a" :=
  ⟨by decide,
   c9_client_side_detector_skips_missing_ids [mkFront "a" 100] [mkFront "b" 300]
     "a" (by decide)⟩

/-- C6: the backend detector returns no entry for a client snapshot whose
records all exist server-side with the same revision and `updatedAt` the
client believes; and a client record whose id is absent server-side yields an
entry carrying exactly one `existence` descriptor with `currentValue` null and
`attemptedValue` the string `exists`. -/
theorem c6_detect_conflicts_equal_empty_and_deleted_existence :
    (∀ (store : List Product) (now : Int) (cs : List ClientProduct),
      (∀ c ∈ cs, ∀ i, c.id = some i → i ≠ "" →
        ∃ s, findOne store i = .ok s ∧ c.version = some s.version ∧
          c.updatedAt = some s.updatedAt) →
      detectConflicts store now cs = []) ∧
    (∀ (store : List Product) (now : Int) (c : ClientProduct)
        (rest : List ClientProduct) (i : String),
      c.id = some i → i ≠ "" → findOne store i = .error .notFound →
      detectConflicts store now (c :: rest)
        = { record := .fromClient c, conflicts := [existenceConflict now] }
            :: detectConflicts store now rest) := by
  constructor
  · intro store now cs h
    induction cs with
    | nil => rfl
    | cons c rest ih =>
      have hrest : detectConflicts store now rest = [] :=
        ih (fun c' hc' => h c' (List.mem_cons_of_mem _ hc'))
      match hid : c.id with
      | none => simpa [detectConflicts, hid] using hrest
      | some i =>
        by_cases hne : i = ""
        · subst hne
          simpa [detectConflicts, hid] using hrest
        · obtain ⟨s, hfind, hv, ht⟩ := h c (List.mem_cons_self c rest) i hid hne
          have hcmp : compareProductVersions c s = [] := by
            simp [compareProductVersions, hv, ht]
          simpa [detectConflicts, hid, hne, hfind, hcmp] using hrest
  · intro store now c rest i hid hne hfind
    simp [detectConflicts, hid, hne, hfind]

theorem c6_detect_conflicts_equal_empty_and_deleted_existence_witness :
    detectConflicts [mkProduct "a" 3 100] 500
      [{ id := some "a", version := some 3, updatedAt := some 100 }] = [] ∧
    detectConflicts [] 500
      [{ id := some "a", version := some 1, updatedAt := some 100 }]
      = [{ record := .fromClient
             { id := some "a", version := some 1, updatedAt := some 100 },
           conflicts := [existenceConflict 500] }] :=
  ⟨c6_detect_conflicts_equal_empty_and_deleted_existence.1
      [mkProduct "a" 3 100] 500 _
      (by
        intro c hc i hid hne
        refine ⟨mkProduct "a" 3 100, ?_, ?_, ?_⟩ <;>
          simp_all [findOne, mkProduct]),
   c6_detect_conflicts_equal_empty_and_deleted_existence.2 [] 500 _ [] "a"
      rfl (by decide) rfl⟩

/-- Pushing a value for exactly the elements satisfying a predicate is a
filter followed by a map. -/
lemma filterMap_if_eq_filter_map {α β : Type} (l : List α) (P : α → Prop)
    [DecidablePred P] (g : α → β) :
    l.filterMap (fun a => if P a then some (g a) else none)
      = (l.filter (fun a => decide (P a))).map g := by
  induction l with
  | nil => rfl
  | cons a t ih =>
    by_cases h : P a <;> simp [h, ih]

/-- C2 counterexample: the backend detector emits an entry for a client record
even though the server copy's `updatedAt` (100) is not strictly greater than
the client's believed `updatedAt` (100) — the claimed early-exit does not
guard the revision check. -/
theorem c2_counterexample_version_conflict_without_newer_server :
    ¬ (100 : Int) < (mkProduct "a" 2 100).updatedAt ∧
    detectConflicts [mkProduct "a" 2 100] 500
      [{ id := some "a", version := some 1, updatedAt := some 100 }] ≠ [] := by
  constructor
  · decide
  · decide

/-- C2 (amended): the strictly-newer early-exit and the per-field comparison
over the fixed business-field set belong to the client-side detector
(`compareProducts`), which never emits a `version` conflict — the client
product type carries no revision; the revision check lives in the backend
comparator (`compareProductVersions`), which emits a `version` conflict
whenever a supplied revision differs, regardless of the timestamps. -/
theorem c2_amended_detector_split :
    (∀ clientProduct serverProduct : FrontProduct,
      ¬ clientProduct.updatedAt < serverProduct.updatedAt →
      compareProducts clientProduct serverProduct = []) ∧
    (∀ clientProduct serverProduct : FrontProduct,
      clientProduct.updatedAt < serverProduct.updatedAt →
      compareProducts clientProduct serverProduct
        = (fieldsToCheck.filter (fun f =>
            decide (getField clientProduct f ≠ getField serverProduct f))).map
            (fun f =>
              { productId := clientProduct.id, field := f,
                clientValue := getField clientProduct f,
                serverValue := getField serverProduct f,
                clientModified := clientProduct.updatedAt,
                serverModified := serverProduct.updatedAt })) ∧
    (∀ (clientProduct serverProduct : FrontProduct) (d : ProductConflict),
      d ∈ compareProducts clientProduct serverProduct → d.field ≠ "version") ∧
    (∀ (client : ClientProduct) (server : Product) (v : Int),
      client.version = some v → v ≠ server.version →
      { field := "version", currentValue := JsValue.int server.version,
        attemptedValue := JsValue.int v, lastModified := server.updatedAt }
        ∈ compareProductVersions client server) := by
  refine ⟨?_, ?_, ?_, ?_⟩
  · intro c s h
    simp [compareProducts, h]
  · intro c s h
    simp only [compareProducts, if_pos h]
    exact filterMap_if_eq_filter_map fieldsToCheck _ _
  · intro c s d hd
    unfold compareProducts at hd
    split at hd
    · obtain ⟨f, hf, hsome⟩ := List.mem_filterMap.mp hd
      have hver : "version" ∉ fieldsToCheck := by decide
      split at hsome
      · cases hsome
        exact fun h => hver (h ▸ hf)
      · cases hsome
    · cases hd
  · intro c s v hv hne
    simp only [compareProductVersions, hv, List.mem_append]
    left
    simp [hne]

theorem c2_amended_detector_split_witness :
    compareProducts (mkFront "a" 100) { mkFront "a" 100 with price := 99 } = [] ∧
    { field := "version", currentValue := JsValue.int 2,
      attemptedValue := JsValue.int 1, lastModified := (100 : Int) }
      ∈ compareProductVersions
          { id := some "a", version := some 1, updatedAt := some 100 }
          (mkProduct "a" 2 100) :=
  ⟨c2_amended_detector_split.1 (mkFront "a" 100)
      { mkFront "a" 100 with price := 99 } (by decide),
   c2_amended_detector_split.2.2.2
      { id := some "a", version := some 1, updatedAt := some 100 }
      (mkProduct "a" 2 100) 1 rfl (by decide)⟩

/-- The write trace of the client-wins loop: exactly one `updateProduct` call,
carrying the full business-field payload, per client record whose id is
conflicted, in client order. -/
lemma clientWinsGo_writes (api : ApiWrite) (ids : List String)
    (ss : List FrontProduct) (cs : List FrontProduct) :
    (clientWinsGo api ids ss cs).2
      = (cs.filter (fun c => decide (c.id ∈ ids))).map
          (fun c => (c.id, toUpdateRequest c)) := by
  induction cs with
  | nil => rfl
  | cons c rest ih =>
    by_cases h : c.id ∈ ids
    · cases hapi : api c.id (toUpdateRequest c) with
      | some u => simp [clientWinsGo, h, hapi, ih]
      | none =>
        cases hfind : ss.find? (fun p => p.id == c.id) with
        | some sp => simp [clientWinsGo, h, hapi, hfind, ih]
        | none => simp [clientWinsGo, h, hapi, hfind, ih]
    · simp [clientWinsGo, h, ih]

/-- Whatever happens to the head record, the records resolved for the tail
stay in the client-wins result. -/
lemma clientWinsGo_tail_subset (api : ApiWrite) (ids : List String)
    (ss : List FrontProduct) (c : FrontProduct) (rest : List FrontProduct)
    (x : FrontProduct) (hx : x ∈ (clientWinsGo api ids ss rest).1) :
    x ∈ (clientWinsGo api ids ss (c :: rest)).1 := by
  by_cases h : c.id ∈ ids
  · cases hapi : api c.id (toUpdateRequest c) with
    | some u => simp [clientWinsGo, h, hapi, hx]
    | none =>
      cases hfind : ss.find? (fun p => p.id == c.id) with
      | some sp => simp [clientWinsGo, h, hapi, hfind, hx]
      | none => simp [clientWinsGo, h, hapi, hfind, hx]
  · simp [clientWinsGo, h, hx]

/-- C5: under the client-wins strategy, every client record with a conflicted
id gets exactly one store write of its full business-field payload (in client
order); a record whose write fails resolves to its server copy when one
exists, and the records after a failure are still processed; a client record
whose id is not conflicted passes through to the result unchanged. -/
theorem c5_client_wins_writes_and_fallback
    (api : ApiWrite) (conflicts : List ProductConflict)
    (clientProducts serverProducts : List FrontProduct) :
    ((resolveConflicts .clientWins api conflicts clientProducts serverProducts).2
      = (clientProducts.filter (fun c =>
          decide (c.id ∈ conflicts.map (fun d => d.productId)))).map
          (fun c => (c.id, toUpdateRequest c))) ∧
    (∀ c ∈ clientProducts, c.id ∉ conflicts.map (fun d => d.productId) →
      c ∈ (resolveConflicts .clientWins api conflicts clientProducts
            serverProducts).1) ∧
    (∀ c ∈ clientProducts, c.id ∈ conflicts.map (fun d => d.productId) →
      api c.id (toUpdateRequest c) = none →
      ∀ sp, serverProducts.find? (fun p => p.id == c.id) = some sp →
        sp ∈ (resolveConflicts .clientWins api conflicts clientProducts
               serverProducts).1) := by
  refine ⟨clientWinsGo_writes api _ serverProducts clientProducts, ?_, ?_⟩
  · intro c hc hnot
    show c ∈ (clientWinsGo api _ serverProducts clientProducts).1
    induction clientProducts with
    | nil => cases hc
    | cons a rest ih =>
      rcases List.mem_cons.mp hc with rfl | hmem
      · simp [clientWinsGo, hnot]
      · exact clientWinsGo_tail_subset api _ serverProducts a rest c (ih hmem)
  · intro c hc hin hapi sp hsp
    show sp ∈ (clientWinsGo api _ serverProducts clientProducts).1
    induction clientProducts with
    | nil => cases hc
    | cons a rest ih =>
      rcases List.mem_cons.mp hc with rfl | hmem
      · simp [clientWinsGo, hin, hapi, hsp]
      · exact clientWinsGo_tail_subset api _ serverProducts a rest sp (ih hmem)

theorem c5_client_wins_writes_and_fallback_witness :
    ((resolveConflicts .clientWins (fun _ _ => none)
        [{ productId := "a", field := "price", clientValue := .int 10,
           serverValue := .int 12, clientModified := 100,
           serverModified := 200 }]
        [mkFront "a" 100, mkFront "b" 100] [mkFront "a" 200]).2
      = [("a", toUpdateRequest (mkFront "a" 100))]) ∧
    mkFront "b" 100 ∈ (resolveConflicts .clientWins (fun _ _ => none)
        [{ productId := "a", field := "price", clientValue := .int 10,
           serverValue := .int 12, clientModified := 100,
           serverModified := 200 }]
        [mkFront "a" 100, mkFront "b" 100] [mkFront "a" 200]).1 ∧
    mkFront "a" 200 ∈ (resolveConflicts .clientWins (fun _ _ => none)
        [{ productId := "a", field := "price", clientValue := .int 10,
           serverValue := .int 12, clientModified := 100,
           serverModified := 200 }]
        [mkFront "a" 100, mkFront "b" 100] [mkFront "a" 200]).1 := by
  refine ⟨?_, ?_, ?_⟩
  · have h := (c5_client_wins_writes_and_fallback (fun _ _ => none)
      [{ productId := "a", field := "price", clientValue := .int 10,
         serverValue := .int 12, clientModified := 100, serverModified := 200 }]
      [mkFront "a" 100, mkFront "b" 100] [mkFront "a" 200]).1
    rw [h]
    decide
  · exact (c5_client_wins_writes_and_fallback (fun _ _ => none) _ _ _).2.1
      (mkFront "b" 100) (by decide) (by decide)
  · exact (c5_client_wins_writes_and_fallback (fun _ _ => none) _ _ _).2.2
      (mkFront "a" 100) (by decide) (by decide) rfl (mkFront "a" 200) (by decide)

/-- Saving a record never changes the set (or order) of stored ids. -/
lemma saveProduct_ids (store : List Product) (p : Product) (now : Int) :
    ((saveProduct store p now).2).map Product.id = store.map Product.id := by
  unfold saveProduct
  simp only [List.map_map]
  apply List.map_congr_left
  intro q _
  by_cases h : q.id == p.id
  · simp only [Function.comp_apply, if_pos h]
    exact (eq_of_beq h).symm
  · simp [Function.comp, h]

/-- Every throw path of `updateWithVersionCheck` leaves the store exactly as
it was. -/
lemma updateWithVersionCheck_error_store
    {store : List Product} {now : Int} {i : String} {dto : UpdateVersionedDto}
    {e : AppError}
    (h : (updateWithVersionCheck store now i dto).1 = .error e) :
    (updateWithVersionCheck store now i dto).2 = store := by
  unfold updateWithVersionCheck at h ⊢
  cases hf : findOne store i with
  | error e2 => simp [hf]
  | ok p =>
    simp only [hf] at h ⊢
    split_ifs at h ⊢ <;> simp_all

/-- `updateWithVersionCheck` preserves the stored id list. -/
lemma updateWithVersionCheck_ids
    (store : List Product) (now : Int) (i : String) (dto : UpdateVersionedDto) :
    ((updateWithVersionCheck store now i dto).2).map Product.id
      = store.map Product.id := by
  unfold updateWithVersionCheck
  cases hf : findOne store i with
  | error e => rfl
  | ok p =>
    show (List.map Product.id
      (if versionMismatch dto.version p.version then
        ((.error .conflict : Except AppError Product), store)
       else if timestampConflict dto.lastModified p.updatedAt then
        (.error .conflict, store)
       else
        (.ok (saveProduct store (applyUpdateData p dto) now).1,
         (saveProduct store (applyUpdateData p dto) now).2)).2) = _
    split_ifs
    · rfl
    · rfl
    · exact saveProduct_ids store (applyUpdateData p dto) now

/-- A stored id always resolves through `findOne`. -/
lemma findOne_ok_of_mem {store : List Product} {i : String}
    (h : i ∈ store.map Product.id) : ∃ p, findOne store i = .ok p := by
  unfold findOne
  cases hf : store.find? (fun p => p.id == i) with
  | some p => exact ⟨p, rfl⟩
  | none =>
    obtain ⟨q, hq, hqid⟩ := List.mem_map.mp h
    have := List.find?_eq_none.mp hf q hq
    simp [hqid] at this

/-- On an existing record, `updateWithVersionCheck` either succeeds or throws
Conflict — never NotFound or BadRequest. -/
lemma updateWithVersionCheck_ok_or_conflict
    (now : Int) (dto : UpdateVersionedDto) {store : List Product} {i : String}
    {p : Product} (hf : findOne store i = .ok p) :
    (∃ q, (updateWithVersionCheck store now i dto).1 = .ok q) ∨
    (updateWithVersionCheck store now i dto).1 = .error .conflict := by
  unfold updateWithVersionCheck
  simp only [hf]
  split_ifs <;> simp

/-- When every patch carries a non-empty id of a stored record, the bulk
update runs to completion — Conflict failures along the way are recorded, not
rethrown. -/
lemma bulkUpdate_ok_of_ids (now : Int) :
    ∀ (updates : List UpdateVersionedDto) (store : List Product),
      (∀ dto ∈ updates, ∃ i, dto.id = some i ∧ i ≠ "" ∧
        i ∈ store.map Product.id) →
      ∃ r store2,
        bulkUpdateWithConflictDetection now store updates = (.ok r, store2) := by
  intro updates
  induction updates with
  | nil => exact fun store _ => ⟨([], []), store, rfl⟩
  | cons dto rest ih =>
    intro store h
    obtain ⟨i, hid, hne, hmem⟩ := h dto (List.mem_cons_self dto rest)
    obtain ⟨p, hfind⟩ := findOne_ok_of_mem hmem
    have hids := updateWithVersionCheck_ids store now i dto
    have hrest : ∀ d ∈ rest, ∃ j, d.id = some j ∧ j ≠ "" ∧
        j ∈ ((updateWithVersionCheck store now i dto).2).map Product.id := by
      intro d hd
      obtain ⟨j, h1, h2, h3⟩ := h d (List.mem_cons_of_mem _ hd)
      exact ⟨j, h1, h2, hids ▸ h3⟩
    have hdisj := updateWithVersionCheck_ok_or_conflict now dto hfind
    rcases hu : updateWithVersionCheck store now i dto with ⟨res, store2⟩
    rw [hu] at hdisj hrest
    obtain ⟨⟨us, cs⟩, s3, heq⟩ := ih store2 hrest
    rcases hdisj with ⟨q, hq⟩ | hq
    · refine ⟨(q :: us, cs), s3, ?_⟩
      simp only at hq
      subst hq
      simp only [bulkUpdateWithConflictDetection, hid, if_neg hne, hu, heq]
    · simp only at hq
      subst hq
      refine ⟨(us,
        (match findOne store2 i with
         | .ok serverProduct =>
           { record := .fromServer serverProduct,
             conflicts := [{ field := "version",
                             currentValue := .int serverProduct.version,
                             attemptedValue := optIntValue dto.version,
                             lastModified := serverProduct.updatedAt }] }
         | .error _ =>
           { record := .fromDto dto,
             conflicts := [existenceConflict now] }) :: cs), s3, ?_⟩
      simp only [bulkUpdateWithConflictDetection, hid, if_neg hne, hu, heq]

/-- C4 counterexample: a batch aborts wholesale when an item references a
missing record — the NotFound error is rethrown, discarding the aggregates,
even though the second patch alone would succeed. -/
theorem c4_counterexample_notfound_aborts_batch :
    bulkUpdateWithConflictDetection 200 [mkProduct "a" 1 100]
        [{ emptyDto with id := some "zzz", version := some 1 },
         { emptyDto with id := some "a", version := some 1, name := some "A2" }]
      = (.error .notFound, [mkProduct "a" 1 100]) ∧
    (bulkUpdateWithConflictDetection 200 [mkProduct "a" 1 100]
        [{ emptyDto with id := some "a", version := some 1, name := some "A2" }]).1
      = .ok ([{ mkProduct "a" 1 100 with
                  name := "A2", updatedAt := 200, version := 2 }], []) := by
  constructor
  · decide
  · decide

/-- C4 (amended): only Conflict failures are tolerated mid-batch — when every
patch carries a non-empty id of an existing record, the batch always completes,
aggregating successes into `updated` and version conflicts into `conflicts`; in
particular a 3-patch batch whose 2nd patch has a stale revision yields
`updated` holding exactly the results of patches 1 and 3 and `conflicts`
exactly one entry for patch 2.  (A patch without an id, or referencing a
deleted record, instead aborts the whole batch with BadRequest / NotFound.) -/
theorem c4_amended_bulk_conflicts_tolerated :
    (∀ (now : Int) (updates : List UpdateVersionedDto) (store : List Product),
      (∀ dto ∈ updates, ∃ i, dto.id = some i ∧ i ≠ "" ∧
        i ∈ store.map Product.id) →
      ∃ r store2,
        bulkUpdateWithConflictDetection now store updates = (.ok r, store2)) ∧
    (bulkUpdateWithConflictDetection 200
        [mkProduct "a" 1 100, mkProduct "b" 2 100, mkProduct "c" 3 100]
        [{ emptyDto with id := some "a", version := some 1, name := some "A2" },
         { emptyDto with id := some "b", version := some 1 },
         { emptyDto with id := some "c", version := some 3, price := some 99 }]
      = (.ok ([{ mkProduct "a" 1 100 with
                   name := "A2", updatedAt := 200, version := 2 },
               { mkProduct "c" 3 100 with
                   price := 99, updatedAt := 200, version := 4 }],
              [{ record := .fromServer (mkProduct "b" 2 100),
                 conflicts := [{ field := "version", currentValue := .int 2,
                                 attemptedValue := .int 1,
                                 lastModified := 100 }] }]),
         [{ mkProduct "a" 1 100 with
              name := "A2", updatedAt := 200, version := 2 },
          mkProduct "b" 2 100,
          { mkProduct "c" 3 100 with
              price := 99, updatedAt := 200, version := 4 }])) := by
  constructor
  · exact bulkUpdate_ok_of_ids
  · decide

theorem c4_amended_bulk_conflicts_tolerated_witness :
    ∃ r store2,
      bulkUpdateWithConflictDetection 200 [mkProduct "a" 1 100]
        [{ emptyDto with id := some "a", version := some 5 }]
        = (.ok r, store2) :=
  c4_amended_bulk_conflicts_tolerated.1 200
    [{ emptyDto with id := some "a", version := some 5 }] [mkProduct "a" 1 100]
    (by
      intro dto hd
      rw [List.mem_singleton] at hd
      subst hd
      exact ⟨"a", rfl, by decide, by decide⟩)

/-- Two permuted lists that are both non-increasing in a duplicate-free key
are equal: the fetch order of a collection sorted on a tie-free key is
unique. -/
lemma perm_pairwise_nodupkeys_eq {α : Type} (key : α → Int) :
    ∀ l1 l2 : List α, l1.Perm l2 →
      l1.Pairwise (fun a b => key b ≤ key a) →
      l2.Pairwise (fun a b => key b ≤ key a) →
      (l1.map key).Nodup → l1 = l2 := by
  intro l1
  induction l1 with
  | nil =>
    intro l2 hp _ _ _
    exact (hp.symm.eq_nil).symm
  | cons a t1 ih =>
    intro l2 hp hs1 hs2 hnd
    rw [List.map_cons, List.nodup_cons] at hnd
    cases l2 with
    | nil => cases hp.eq_nil
    | cons b t2 =>
      have hab : a = b := by
        by_contra hne
        have hbt1 : b ∈ t1 := by
          rcases List.mem_cons.mp (hp.mem_iff.mpr (List.mem_cons_self b t2))
            with h | h
          · exact absurd h.symm hne
          · exact h
        have hat2 : a ∈ t2 := by
          rcases List.mem_cons.mp (hp.mem_iff.mp (List.mem_cons_self a t1))
            with h | h
          · exact absurd h hne
          · exact h
        have hba : key b ≤ key a := (List.pairwise_cons.mp hs1).1 b hbt1
        have hab2 : key a ≤ key b := (List.pairwise_cons.mp hs2).1 a hat2
        exact hnd.1 ((le_antisymm hab2 hba) ▸ List.mem_map_of_mem key hbt1)
      subst hab
      rw [ih t2 hp.cons_inv (List.pairwise_cons.mp hs1).2
        (List.pairwise_cons.mp hs2).2 hnd.2]

set_option maxRecDepth 4000 in
/-- C3 counterexample: two records tied on `lastModified` admit two fetch
orders, both sorted by `updatedAt DESC`, over the very same store — identical
(id, revision, lastModified) triples — yet `checkDataConsistency` produces
different checksum strings for them. -/
theorem c3_counterexample_tied_timestamps :
    validFetch [mkProduct "a" 1 0, mkProduct "b" 1 0]
      [mkProduct "a" 1 0, mkProduct "b" 1 0] ∧
    validFetch [mkProduct "a" 1 0, mkProduct "b" 1 0]
      [mkProduct "b" 1 0, mkProduct "a" 1 0] ∧
    (checkDataConsistency [mkProduct "a" 1 0, mkProduct "b" 1 0]).checksum
      ≠ (checkDataConsistency [mkProduct "b" 1 0, mkProduct "a" 1 0]).checksum := by
  refine ⟨by decide, by decide, by decide⟩

/-- C3 (amended): the checksum is a pure, order-independent function of the
(id, revision, lastModified) triples as long as no two records share a
`lastModified` value: any two `updatedAt DESC` fetches of stores with the same
triple multiset and pairwise-distinct timestamps yield the same checksum
string.  (With tied timestamps the fetch order, which the database leaves
unspecified, can change the checksum — see the counterexample.) -/
theorem c3_amended_checksum_order_independent_distinct_timestamps
    (s1 s2 l1 l2 : List Product)
    (h1 : validFetch s1 l1) (h2 : validFetch s2 l2)
    (htr : (s1.map productTriple).Perm (s2.map productTriple))
    (hnd : (s1.map (fun p => p.updatedAt)).Nodup) :
    (checkDataConsistency l1).checksum = (checkDataConsistency l2).checksum := by
  obtain ⟨hperm1, hsort1⟩ := h1
  obtain ⟨hperm2, hsort2⟩ := h2
  have hT : l1.map productTriple = l2.map productTriple := by
    apply perm_pairwise_nodupkeys_eq (fun t => t.2.2)
    · exact ((hperm1.map productTriple).trans htr).trans
        (hperm2.map productTriple).symm
    · exact List.pairwise_map.mpr hsort1
    · exact List.pairwise_map.mpr hsort2
    · have hmm : (l1.map productTriple).map (fun t => t.2.2)
          = l1.map (fun p => p.updatedAt) := by
        rw [List.map_map]
        rfl
      rw [hmm]
      exact ((hperm1.map (fun p => p.updatedAt)).nodup_iff).mpr hnd
  have hlines : l1.map checksumLine = l2.map checksumLine := by
    have e1 : l1.map checksumLine = (l1.map productTriple).map tripleLine := by
      rw [List.map_map]
      rfl
    have e2 : l2.map checksumLine = (l2.map productTriple).map tripleLine := by
      rw [List.map_map]
      rfl
    rw [e1, e2, hT]
  simp [checkDataConsistency, hlines]

theorem c3_amended_checksum_order_independent_distinct_timestamps_witness :
    (checkDataConsistency [mkProduct "a" 1 200, mkProduct "b" 2 100]).checksum
      = (checkDataConsistency
          [{ mkProduct "a" 1 200 with quantity := 7 },
           { mkProduct "b" 2 100 with name := "zz" }]).checksum :=
  c3_amended_checksum_order_independent_distinct_timestamps
    [mkProduct "a" 1 200, mkProduct "b" 2 100]
    [{ mkProduct "b" 2 100 with name := "zz" },
     { mkProduct "a" 1 200 with quantity := 7 }]
    [mkProduct "a" 1 200, mkProduct "b" 2 100]
    [{ mkProduct "a" 1 200 with quantity := 7 },
     { mkProduct "b" 2 100 with name := "zz" }]
    (by decide) (by decide) (by decide) (by decide)
